import Mathlib

/-!
Verification development for the opentrack pose pipeline
(`src/logic/pipeline.cpp`).

Modelling conventions:

* C `double` values are modelled as real numbers (`ℝ`).  NaN/Infinity can
  only enter the pipeline from external collaborators (tracker, filter,
  spline curves); an externally supplied scalar is modelled as `Option ℝ`
  with `none` standing for a non-finite value.  Internal real arithmetic on
  finite values stays finite, matching the code's check-point placement.
* The `unsigned` flag word of `struct bits` is modelled as `ℕ` with the
  bitwise operations written out; `~flag` on a 32-bit word is
  `(2 ^ 32 - 1) ^^^ flag`.
* Timer/clock reads (`Timer::elapsed`, `elapsed_seconds`) are inputs of the
  modelled step functions; time quantities in `pipeline::run` are integer
  nanosecond counts (`ℤ`).
* Single-threaded semantics: the CAS retry loops of `bits::set` /
  `bits::negate` and the mutex around the output snapshot reduce to plain
  reads and writes of the state record threaded through each tick.
-/

noncomputable section

namespace Opentrack

/-! ## Flag word (`struct bits`, pipeline.cpp lines 598-641)

The concrete bit assignments of `enum flags` live in `pipeline.hpp`, which
is not part of the sources; four distinct single bits are chosen for the
four named flags. -/

/-- Centering-requested flag bit. -/
def f_center : ℕ := 1

/-- Tracking-enabled-by-hotkey flag bit. -/
def f_enabled_p : ℕ := 2

/-- Tracking-enabled-by-user flag bit. -/
def f_enabled_h : ℕ := 4

/-- Zero-pose-override flag bit. -/
def f_zero : ℕ := 8

/-- All-ones 32-bit word, the value of `~0u`. -/
def mask32 : ℕ := 2 ^ 32 - 1

/-- Model of `bits::set(flag, val)`: the successful CAS iteration computes
`(b & ~flag) | (flag * val)`. -/
def word_set (b flag : ℕ) (v : Bool) : ℕ :=
  (b &&& (mask32 ^^^ flag)) ||| (flag * (if v then 1 else 0))

/-- Model of `bits::negate(flag)`: the successful CAS iteration computes
`b ^ flag`. -/
def word_negate (b flag : ℕ) : ℕ := b ^^^ flag

/-- Model of `bits::get(flag)`: `!!(b & flag)`. -/
def word_get (b flag : ℕ) : Bool := b &&& flag != 0

/-- Model of the `bits::bits()` constructor: starting from `b = 0`,
set centering, both enables, and clear the zero override. -/
def bits_init : ℕ :=
  word_set (word_set (word_set (word_set 0 f_center true) f_enabled_p true)
    f_enabled_h true) f_zero false

/-! ## Scheduler arithmetic (`pipeline::run`, lines 535-561)

One loop iteration's backlog/sleep computation, on integer nanoseconds.
`elapsed` is the measured wall time of the tick just run.  The returned
pair is the new `backlog_time` and the integer millisecond count handed to
`portable::sleep` (`time_cast<ms>` truncates; the clamped value is
nonnegative, so ℤ division agrees with C truncation). -/
def schedule_step (backlog elapsed : ℤ) : ℤ × ℤ :=
  let b0 := if 3000000000 < backlog ∨ backlog < -3000000000 then 0 else backlog
  let b1 := b0 + (elapsed - 4000000)
  let sleepNs := min (max (4000000 - b1) 0) 10000000
  (b1, sleepNs / 1000000)

/-! ## Pose data model

`Pose` is the 6-tuple `[TX, TY, TZ, Yaw, Pitch, Roll]` (indices 0-5),
translations in tracker units, rotations in degrees. -/

/-- Six-channel pose. -/
abbrev Pose : Type := Fin 6 → ℝ

/-- Three-component Euler/translation vector (`euler_t`). -/
abbrev vec3 : Type := Fin 3 → ℝ

/-- Three-by-three rotation matrix (`rmat`). -/
abbrev Mat3 : Type := Matrix (Fin 3) (Fin 3) ℝ

/-! ## Angle clamping (`pipeline::clamp_value`, lines 296-315) -/

/-- Truncation toward zero, the rounding used by C `fmod` on the quotient. -/
def truncR (q : ℝ) : ℤ := if 0 ≤ q then ⌊q⌋ else ⌈q⌉

/-- Model of C `fmod`: `x - y * trunc(x / y)`. -/
def fmodR (x y : ℝ) : ℝ := x - y * (truncR (x / y) : ℝ)

/-- Model of C `copysign(m, x)` for `m > 0`; a real number has no negative
zero, so `x = 0` yields `+m` as for `+0.0`. -/
def copysignR (m x : ℝ) : ℝ := if x < 0 then -m else m

/-- Model of `clamp(v, lo, hi)`. -/
def clampR (v lo hi : ℝ) : ℝ := min (max v lo) hi

/-- Body of the `clamp_value` loop for one rotation channel: reduce modulo
360, then either re-wrap with a sign-aware 180 offset (when the magnitude
exceeds 180 by more than 1e-2) or clamp to `[-180, 180]`. -/
def clamp_rot (v : ℝ) : ℝ :=
  let x := fmodR v 360
  if |x| - 1 / 100 > 180 then fmodR (x + copysignR 180 x) 360 - copysignR 180 x
  else clampR x (-180) 180

/-- Model of `pipeline::clamp_value`: rotation channels (indices 3-5) are
wrapped, translation channels pass through. -/
def clamp_value (p : Pose) : Pose :=
  fun i => if 3 ≤ (i : ℕ) then clamp_rot (p i) else p i

/-! ## Axis selection (`pipeline::get_selected_axis_value`, lines 345-365) -/

/-- Model of `pipeline::get_selected_axis_value`: returns
`(raw, value, disabled)` where `raw` is the input pose, channel `i` of
`value` is the raw channel at the configured source index (0 when the index
is outside 0-5), and `disabled i` holds when the source index is the
sentinel 6. -/
def get_selected_axis_value (src : Fin 6 → ℤ) (newpose : Pose) :
    Pose × Pose × (Fin 6 → Bool) :=
  (newpose,
   fun i => if h : src i < 0 ∨ 6 ≤ src i then 0
            else newpose ⟨(src i).toNat, by omega⟩,
   fun i => src i == 6)

/-! ## Euler/rotation-matrix conversions

`euler_to_rmat`, `rmat_to_euler` and the `euler_t`/`rmat` helpers live in
the repository's `compat/euler.cpp`, which is not among the sources; they
are modelled from the spec (§3 Data Model): a 3-vector of radians and its
corresponding 3x3 orthonormal matrix, convertible both ways, with
composition by matrix multiplication. -/

open Real Matrix

/-- Degrees-to-radians factor (`d2r`). -/
def d2r : ℝ := π / 180

/-- Radians-to-degrees factor (`r2d`). -/
def r2d : ℝ := 180 / π

/-- Elementary rotation about the first matrix axis. -/
def rotM1 (a : ℝ) : Mat3 := !![1, 0, 0; 0, cos a, -sin a; 0, sin a, cos a]

/-- Elementary rotation about the second matrix axis. -/
def rotM2 (a : ℝ) : Mat3 := !![cos a, 0, sin a; 0, 1, 0; -sin a, 0, cos a]

/-- Elementary rotation about the third matrix axis. -/
def rotM3 (a : ℝ) : Mat3 := !![cos a, -sin a, 0; sin a, cos a, 0; 0, 0, 1]

/-- Modelled from the spec: `euler_to_rmat` (missing `compat/euler.cpp`)
converts a 3-vector of radians to its orthonormal rotation matrix, composing
one elementary rotation per Euler angle by matrix multiplication. -/
def euler_to_rmat (e : vec3) : Mat3 := rotM3 (e 0) * rotM2 (e 1) * rotM1 (e 2)

/-- Model of C `atan2(y, x)`. -/
def atan2R (y x : ℝ) : ℝ :=
  if 0 < x then arctan (y / x)
  else if x < 0 then (if 0 ≤ y then arctan (y / x) + π else arctan (y / x) - π)
  else if 0 < y then π / 2
  else if y < 0 then -(π / 2)
  else 0

/-- Modelled from the spec: `rmat_to_euler` (missing `compat/euler.cpp`)
extracts the Euler angles back from a rotation matrix; the identity matrix
maps to the zero angle vector. -/
def rmat_to_euler (M : Mat3) : vec3 :=
  ![atan2R (M 1 0) (M 0 0), arcsin (-(M 2 0)), atan2R (M 2 1) (M 2 2)]

/-! ## Axis-relabelled rotation (`reltrans::rotate`, lines 38-64) -/

/-- Model of `reltrans::rotate`: re-map a 3-vector through `R` with the
`(tb_Z, tb_X, tb_Y)` relabelling and sign flips of the source; a disabled
axis passes its input through unrotated. -/
def rotate (R : Mat3) (v : vec3) (disable : Fin 3 → Bool) : vec3 :=
  let ret := Matrix.mulVec R ![v 2, -(v 0), -(v 1)]
  ![if disable 0 then v 0 else -(ret 1),
    if disable 1 then v 1 else -(ret 2),
    if disable 2 then v 2 else ret 0]

/-! ## Centering state (`pipeline::maybe_set_center_pose` lines 268-294,
`pipeline::apply_center` lines 317-343) -/

/-- One center frame: current orientation and captured center matrix. -/
structure CenterFrame where
  rotation : Mat3
  rot_center : Mat3

/-- Transient reltrans state: the interpolation flag `cur`, the last zone
flag `in_zone`, and the accumulated interpolated position `interp_pos`. -/
structure RelSt where
  cur : Bool
  in_zone : Bool
  interp_pos : vec3

/-- Mutable per-pipeline state threaded through each tick of
`pipeline::logic`.  `nan_emitted` models the `once_only` static guard of
`emit_nan_check_msg`. -/
structure PState where
  b : ℕ
  tracking_started : Bool
  newpose : Pose
  output_pose : Pose
  raw_6dof : Pose
  scaled_rotation : CenterFrame
  real_rotation : CenterFrame
  t_center : vec3
  relSt : RelSt
  nan_emitted : Bool

/-- Reltrans operating mode (`reltrans_state`). -/
inductive RMode where
  | disabled : RMode
  | enabled : RMode
  | nonCenter : RMode
deriving DecidableEq

/-- Static configuration: per-axis mapping options (`Mappings`) and the
settings fields of `struct main_settings` read by the pipeline. -/
structure Config where
  src : Fin 6 → ℤ
  invert : Fin 6 → Bool
  zero_off : Fin 6 → ℝ
  altp : Fin 6 → Bool
  center_at_startup : Bool
  c_mult : ℝ
  c_div : ℝ
  reltrans_mode : RMode
  rt_disable : Fin 6 → Bool
  neck_enable : Bool
  neck_z : ℤ
  hasFilter : Bool

/-- Model of `pipeline::maybe_set_center_pose`: refresh both `rotation`
matrices from the current pose every tick; when the center flag is set,
additionally capture `rot_center`/`t_center` (identity/zero under
own-center logic, transpose/current translation otherwise).  The returned
Bool records whether the filter's `center()` hook was invoked. -/
def maybe_set_center_pose (cfg : Config) (st : PState) (value : Pose)
    (own_center_logic : Bool) : PState × Bool :=
  let tmp : vec3 := fun j => d2r * value ⟨j.val + 3, by omega⟩
  let sR := euler_to_rmat (fun j => cfg.c_div * tmp j)
  let rR := euler_to_rmat tmp
  if word_get st.b f_center then
    if own_center_logic then
      ({ st with scaled_rotation := ⟨sR, 1⟩, real_rotation := ⟨rR, 1⟩,
                 t_center := 0 }, cfg.hasFilter)
    else
      ({ st with scaled_rotation := ⟨sR, sR.transpose⟩,
                 real_rotation := ⟨rR, rR.transpose⟩,
                 t_center := fun j => value ⟨j.val, by omega⟩ }, cfg.hasFilter)
  else
    ({ st with scaled_rotation := ⟨sR, st.scaled_rotation.rot_center⟩,
               real_rotation := ⟨rR, st.real_rotation.rot_center⟩ }, false)

/-- Model of `pipeline::apply_center`: compose the scaled rotation with its
center, subtract the captured translation, re-project the translation
through the unscaled center, convert to degrees with the configured
multiplier, and apply the per-axis invert flags. -/
def apply_center (cfg : Config) (st : PState) (value : Pose) : Pose :=
  let rotation := st.scaled_rotation.rotation * st.scaled_rotation.rot_center
  let pos : vec3 := fun j => value ⟨j.val, by omega⟩ - st.t_center j
  let rot : vec3 := fun j => r2d * cfg.c_mult * rmat_to_euler rotation j
  let pos2 := rotate st.real_rotation.rot_center pos (fun _ => false)
  fun i =>
    if h : (i : ℕ) < 3 then
      (if cfg.invert i then -(pos2 ⟨i.val, h⟩) else pos2 ⟨i.val, h⟩)
    else
      (if cfg.invert i then -(rot ⟨i.val - 3, by omega⟩)
       else rot ⟨i.val - 3, by omega⟩)

/-! ## Reltrans engine (`reltrans::apply_pipeline` lines 66-143,
`reltrans::apply_neck` lines 145-160)

The `Timer` is modelled by passing the elapsed seconds `dt` of the current
tick as an argument. -/

/-- Zone predicate computed by the `progn` block: in `non_center` mode the
pose is in (compensation) zone unless both the yaw magnitude is below 50
and the pitch magnitude is below 40; in `enabled` mode always. -/
def tcomp_in_zone (mode : RMode) (value : Pose) : Bool :=
  if mode = RMode.nonCenter then
    (if |value 3| < 50 ∧ |value 4| < 40 then false else true)
  else true

/-- Interpolation flag after the zone-transition test: it starts (and then
stays on) when not already interpolating and the stored zone flag differs
from the freshly computed one. -/
def cur_next (st : RelSt) (t : Bool) : Bool := st.cur || (st.in_zone != t)

/-- Translation part of the pose (`euler_t rel { &value[0] }`). -/
def rel_input (value : Pose) : vec3 := fun j => value ⟨j.val, by omega⟩

/-- Rotation matrix built inside `apply_pipeline` from yaw/pitch/roll, each
angle zeroed when its source-disable flag is set (`* !disable(..)`). -/
def rel_rmat (value : Pose) (disable : Fin 6 → Bool) : Mat3 :=
  euler_to_rmat ![value 3 * d2r * (if disable 3 then 0 else 1),
                  value 4 * d2r * (if disable 4 then 0 else 1),
                  value 5 * d2r * (if disable 5 then 0 else 1)]

/-- Translation vector after the conditional rotation: rotated through the
orientation matrix when the new zone flag is on, otherwise the raw
translation.  `&disable[TX]` passes entries 0-2 of the 6-entry disable
vector to `rotate`. -/
def rel_step (mode : RMode) (value : Pose)
    (disable : Fin 6 → Bool) : vec3 :=
  if tcomp_in_zone mode value then
    rotate (rel_rmat value disable) (rel_input value)
      (fun j => disable ⟨j.val, by omega⟩)
  else rel_input value

/-- One step of the exponential interpolation with time constant
`RC = 0.1`: blend the accumulated position toward `rel` by
`alpha = dt / (dt + RC)`. -/
def interp_next (dt : ℝ) (ip rel : vec3) : vec3 :=
  let alpha := dt / (dt + 1 / 10)
  fun j => ip j * (1 - alpha) + rel j * alpha

/-- Model of `reltrans::apply_pipeline`.  Returns the output pose and the
updated transient state.  In the interpolating branch the residual `delta`
sums the absolute value of component 0 of `rel - interp_pos` three times,
exactly as the source does, and the flag clears when `delta < eps = 0.05`. -/
def apply_pipeline (dt : ℝ) (mode : RMode) (st : RelSt) (value : Pose)
    (disable : Fin 6 → Bool) : Pose × RelSt :=
  if mode = RMode.disabled then
    (value, ⟨false, false, st.interp_pos⟩)
  else
    let t := tcomp_in_zone mode value
    let cur1 := cur_next st t
    let rel := rel_step mode value disable
    if cur1 then
      let ip := interp_next dt st.interp_pos rel
      let tmp : vec3 := fun j => rel j - ip j
      let delta := |tmp 0| + |tmp 0| + |tmp 0|
      let cur2 := if delta < 1 / 20 then false else cur1
      (fun i => if h : (i : ℕ) < 3 then ip ⟨i.val, h⟩ else value i,
       ⟨cur2, t, ip⟩)
    else
      (fun i => if h : (i : ℕ) < 3 then rel ⟨i.val, h⟩ else value i,
       ⟨false, t, rel⟩)

/-- Model of `reltrans::apply_neck`: zero offset when disabled or when the
neck length is zero, otherwise the rotated `(0, 0, nz)` vector with `nz`
subtracted back from the lateral component. -/
def apply_neck (value : Pose) (enable : Bool) (nz : ℤ) : vec3 :=
  if !enable then 0
  else if nz ≠ 0 then
    let R := euler_to_rmat (fun j => value ⟨j.val + 3, by omega⟩ * d2r)
    let neck := rotate R ![0, 0, (nz : ℝ)] (fun _ => false)
    ![neck 0, neck 1, neck 2 - (nz : ℝ)]
  else 0

/-- Model of `pipeline::apply_reltrans` (lines 387-408): neck offset added
to the translation after the reltrans pipeline, then every axis-disabled
channel forced to zero. -/
def apply_reltrans (cfg : Config) (dt : ℝ) (st : RelSt) (value : Pose)
    (disabled : Fin 6 → Bool) : Pose × RelSt :=
  let neck := apply_neck value cfg.neck_enable (-cfg.neck_z)
  let pr := apply_pipeline dt cfg.reltrans_mode st value cfg.rt_disable
  let v2 : Pose := fun i =>
    if h : (i : ℕ) < 3 then pr.1 i + neck ⟨i.val, h⟩ else pr.1 i
  (fun i => if disabled i then 0 else v2 i, pr.2)

/-! ## One tick of `pipeline::logic` (lines 410-506)

External collaborators are oracles supplied per tick.  A non-finite scalar
from an oracle is `none`.  Event hooks receive and may transform the pose.
Spline `get_value` outputs feed the final NaN check; propagation of
non-finite float values through the reltrans arithmetic between the
rotation-mapping stage and that check is a floating-point effect with no
real-number counterpart, so the check is modelled on the spline outputs in
the checked channels directly (the values a detected tick would have used
are discarded either way).  Logging, the spline `set_tracking_active` UI
bookkeeping, and the display-only `map` calls of the fallback path have no
modelled effect. -/

/-- Per-tick oracle inputs. -/
structure TickIn where
  tracker : Fin 6 → Option ℝ
  trackerOwnCenter : Bool
  filterF : Pose → Fin 6 → Option ℝ
  mainS : Fin 6 → ℝ → Option ℝ
  altS : Fin 6 → ℝ → Option ℝ
  evRaw : Pose → Pose
  evBeforeFilter : Pose → Pose
  evBeforeMapping : Pose → Pose
  evFinished : Pose → Pose
  dt : ℝ

/-- True when some channel is non-finite (`is_nan` over a 6-pose). -/
def anyNone (p : Fin 6 → Option ℝ) : Bool :=
  (p 0).isNone || (p 1).isNone || (p 2).isNone || (p 3).isNone ||
  (p 4).isNone || (p 5).isNone

/-- Extract the finite values of an all-finite pose (0 is never read on the
paths where some channel is `none`). -/
def forceSome (p : Fin 6 → Option ℝ) : Pose := fun i => (p i).getD 0

/-- Scan of `maybe_enable_center_on_tracking_started`:
`fabs(newpose(i)) != 0` for some channel. -/
def anyNonzero (p : Pose) : Bool :=
  decide (|p 0| ≠ 0) || decide (|p 1| ≠ 0) || decide (|p 2| ≠ 0) ||
  decide (|p 3| ≠ 0) || decide (|p 4| ≠ 0) || decide (|p 5| ≠ 0)

/-- Model of `pipeline::map` (lines 176-183): choose the alternate spline
when the value is negative and the axis allows it, and evaluate it. -/
def mapAxis (cfg : Config) (tk : TickIn) (i : Fin 6) (pos : ℝ) : Option ℝ :=
  if pos < 0 ∧ cfg.altp i then tk.altS i pos else tk.mainS i pos

/-- Model of `pipeline::apply_zero_pos` (lines 378-385). -/
def apply_zero_pos (cfg : Config) (v : Pose) : Pose :=
  fun i => v i + cfg.zero_off i * (if cfg.invert i then -1 else 1)

/-- Result of one tick: updated state plus the observables of the claims
(diagnostic emission, center capture, filter-center hook, NaN detection). -/
structure LogicOut where
  st : PState
  emitted : Bool
  captured : Bool
  hookCalled : Bool
  nanTick : Bool

/-- Tail of every tick from the `ok:`/`nan:` labels on: clear the center
flag, apply the zero override and the zero offsets, run the finished event,
publish, and store the output snapshot; the NaN-latch and the one-shot
diagnostic bookkeeping of `emit_nan_check_msg` happen on detection ticks. -/
def finish (cfg : Config) (tk : TickIn) (st1 : PState) (value raw : Pose)
    (nanTick captured hook : Bool) : LogicOut :=
  let b2 := word_set st1.b f_center false
  let v1 := if word_get b2 f_zero then (fun _ => (0 : ℝ)) else value
  let v2 := tk.evFinished (apply_zero_pos cfg v1)
  let stNew : PState :=
    { st1 with b := b2, output_pose := v2, raw_6dof := raw,
               nan_emitted := st1.nan_emitted || nanTick }
  { st := stNew,
    emitted := nanTick && !st1.nan_emitted,
    captured := captured,
    hookCalled := hook,
    nanTick := nanTick }

/-- Own-center decision at the top of the tick (`center_ordered` uses the
pre-tick `tracking_started`). -/
def tick_own (tk : TickIn) (st : PState) : Bool :=
  word_get st.b f_center && st.tracking_started && tk.trackerOwnCenter

/-- Member `newpose` after the raw stage: updated from the (event-adjusted)
tracker sample when `get(f_enabled_p) ^ !get(f_enabled_h)`. -/
def tick_newpose (tk : TickIn) (st : PState) : Pose :=
  if (word_get st.b f_enabled_p).xor (!word_get st.b f_enabled_h) then
    tk.evRaw (forceSome tk.tracker)
  else st.newpose

/-- Tracking latch after `maybe_enable_center_on_tracking_started`. -/
def tick_started (tk : TickIn) (st : PState) : Bool :=
  st.tracking_started || anyNonzero (tick_newpose tk st)

/-- Flag word after the possible center-at-startup auto-request, which
fires only on the tick where the latch turns on. -/
def tick_b1 (cfg : Config) (tk : TickIn) (st : PState) : ℕ :=
  if (!st.tracking_started) && tick_started tk st && cfg.center_at_startup
  then word_set st.b f_center true
  else st.b

/-- Axis-disabled mask of the tick. -/
def tick_disabled (cfg : Config) (tk : TickIn) (st : PState) : Fin 6 → Bool :=
  (get_selected_axis_value cfg.src (tick_newpose tk st)).2.2

/-- Selected-and-clamped working pose. -/
def tick_value1 (cfg : Config) (tk : TickIn) (st : PState) : Pose :=
  clamp_value (get_selected_axis_value cfg.src (tick_newpose tk st)).2.1

/-- State before `maybe_set_center_pose`: raw-stage updates applied. -/
def tick_stA (cfg : Config) (tk : TickIn) (st : PState) : PState :=
  { st with newpose := tick_newpose tk st, tracking_started := tick_started tk st,
            b := tick_b1 cfg tk st }

/-- Result pair of `maybe_set_center_pose` for this tick. -/
def tick_msc (cfg : Config) (tk : TickIn) (st : PState) : PState × Bool :=
  maybe_set_center_pose cfg (tick_stA cfg tk st) (tick_value1 cfg tk st)
    (tick_own tk st)

/-- State after the centering stage. -/
def tick_stB (cfg : Config) (tk : TickIn) (st : PState) : PState :=
  (tick_msc cfg tk st).1

/-- Whether the center pose was captured this tick (`get(f_center)` held at
`maybe_set_center_pose`). -/
def tick_captured (cfg : Config) (tk : TickIn) (st : PState) : Bool :=
  word_get (tick_b1 cfg tk st) f_center

/-- Whether the filter's `center()` hook ran this tick. -/
def tick_hook (cfg : Config) (tk : TickIn) (st : PState) : Bool :=
  (tick_msc cfg tk st).2

/-- Working pose after `apply_center` and the before-filter event. -/
def tick_value2 (cfg : Config) (tk : TickIn) (st : PState) : Pose :=
  tk.evBeforeFilter (apply_center cfg (tick_stB cfg tk st) (tick_value1 cfg tk st))

/-- Filter output (`maybe_apply_filter`): identity when no filter is
configured. -/
def tick_filtered (cfg : Config) (tk : TickIn) (st : PState) : Fin 6 → Option ℝ :=
  if cfg.hasFilter then tk.filterF (tick_value2 cfg tk st)
  else fun i => some (tick_value2 cfg tk st i)

/-- Rotation-mapping stage outputs (`map` on channels 3-5 only, the
translation channels mapped later because of the tcomp caveat). -/
def tick_rotmapped (cfg : Config) (tk : TickIn) (st : PState) : Fin 6 → Option ℝ :=
  fun i =>
    if 3 ≤ (i : ℕ) then
      mapAxis cfg tk i (tk.evBeforeMapping (forceSome (tick_filtered cfg tk st)) i)
    else some (tk.evBeforeMapping (forceSome (tick_filtered cfg tk st)) i)

/-- Reltrans stage result on the rotation-mapped pose. -/
def tick_rt (cfg : Config) (tk : TickIn) (st : PState) : Pose × RelSt :=
  apply_reltrans cfg tk.dt (tick_stB cfg tk st).relSt
    (forceSome (tick_rotmapped cfg tk st)) (tick_disabled cfg tk st)

/-- State after the reltrans stage. -/
def tick_stC (cfg : Config) (tk : TickIn) (st : PState) : PState :=
  { tick_stB cfg tk st with relSt := (tick_rt cfg tk st).2 }

/-- Channels examined by the final NaN check: translation channels as just
produced by the translation-mapping splines, rotation channels as passed
through (or zeroed) by the reltrans stage. -/
def tick_checked (cfg : Config) (tk : TickIn) (st : PState) : Fin 6 → Option ℝ :=
  fun i =>
    if (i : ℕ) < 3 then mapAxis cfg tk i ((tick_rt cfg tk st).1 i)
    else if tick_disabled cfg tk st i then some 0
    else tick_rotmapped cfg tk st i

/-- Final mapped pose of a NaN-free tick. -/
def tick_final (cfg : Config) (tk : TickIn) (st : PState) : Pose :=
  fun i =>
    if (i : ℕ) < 3 then (mapAxis cfg tk i ((tick_rt cfg tk st).1 i)).getD 0
    else (tick_rt cfg tk st).1 i

/-- Model of one `pipeline::logic` tick: the three NaN check points
short-circuit to the fallback that substitutes the previous output and raw
snapshot; otherwise the computed pose is published.  On every path the
common tail `finish` runs. -/
def logic (cfg : Config) (tk : TickIn) (st : PState) : LogicOut :=
  if anyNone tk.tracker then
    finish cfg tk st st.output_pose st.raw_6dof true false false
  else if anyNone (tick_filtered cfg tk st) then
    finish cfg tk (tick_stB cfg tk st) st.output_pose st.raw_6dof true
      (tick_captured cfg tk st) (tick_hook cfg tk st)
  else if anyNone (tick_checked cfg tk st) then
    finish cfg tk (tick_stC cfg tk st) st.output_pose st.raw_6dof true
      (tick_captured cfg tk st) (tick_hook cfg tk st)
  else
    finish cfg tk (tick_stC cfg tk st) (tick_final cfg tk st)
      (tick_newpose tk st) false (tick_captured cfg tk st) (tick_hook cfg tk st)

/-! ## Helper lemmas: flag word -/

theorem word_get_pow (b i : ℕ) : word_get b (2 ^ i) = b.testBit i := by
  rw [word_get, Nat.and_two_pow]
  cases h : b.testBit i <;> simp [h, Nat.pow_eq_zero]

theorem mask32_testBit (k : ℕ) : mask32.testBit k = decide (k < 32) := by
  rw [mask32]
  exact Nat.testBit_two_pow_sub_one 32 k

theorem testBit_word_set (b i k : ℕ) (v : Bool) (hi : i < 32) (hk : k < 32) :
    (word_set b (2 ^ i) v).testBit k = if k = i then v else b.testBit k := by
  rw [word_set, Nat.testBit_or, Nat.testBit_and, Nat.testBit_xor, mask32_testBit]
  rcases eq_or_ne k i with rfl | h
  · cases v <;> simp [Nat.testBit_two_pow_self, hk, Nat.zero_testBit]
  · have h2 : (2 ^ i).testBit k = false := Nat.testBit_two_pow_of_ne (Ne.symm h)
    cases v <;> simp [h2, hk, h, Nat.zero_testBit]

theorem testBit_word_negate (b i k : ℕ) :
    (word_negate b (2 ^ i)).testBit k = if k = i then !(b.testBit k) else b.testBit k := by
  rw [word_negate, Nat.testBit_xor]
  rcases eq_or_ne k i with rfl | h
  · simp [Nat.testBit_two_pow_self, Bool.xor_true]
  · simp [Nat.testBit_two_pow_of_ne (Ne.symm h), h]

theorem f_center_pow : f_center = 2 ^ 0 := rfl

theorem f_enabled_p_pow : f_enabled_p = 2 ^ 1 := rfl

theorem f_enabled_h_pow : f_enabled_h = 2 ^ 2 := rfl

theorem f_zero_pow : f_zero = 2 ^ 3 := rfl

theorem word_get_clear_center (b : ℕ) :
    word_get (word_set b f_center false) f_center = false := by
  rw [f_center_pow, word_get_pow,
    testBit_word_set b 0 0 false (by norm_num) (by norm_num)]
  simp

theorem word_get_set_center_zero (b : ℕ) (v : Bool) :
    word_get (word_set b f_center v) f_zero = word_get b f_zero := by
  rw [f_center_pow, f_zero_pow, word_get_pow, word_get_pow,
    testBit_word_set b 0 3 v (by norm_num) (by norm_num)]
  simp

/-! ## Claim C8: flag-register operations -/

/-- C8: for every flag word `b` and distinct single-bit flags `2^i`, `2^j`,
one `set` or `negate` of flag `2^i` leaves flag `2^j` unchanged; a `set`
followed by `get` returns the value written (in particular `set true` then
`set false` reads back `false`), and `negate` flips exactly the addressed
flag. -/
theorem flag_ops_independent (b i j : ℕ) (v : Bool) (hij : i ≠ j)
    (hi : i < 32) (hj : j < 32) :
    word_get (word_set b (2 ^ i) v) (2 ^ j) = word_get b (2 ^ j) ∧
    word_get (word_negate b (2 ^ i)) (2 ^ j) = word_get b (2 ^ j) ∧
    word_get (word_set b (2 ^ i) v) (2 ^ i) = v ∧
    word_get (word_set (word_set b (2 ^ i) true) (2 ^ i) false) (2 ^ i) = false ∧
    word_get (word_negate b (2 ^ i)) (2 ^ i) = !word_get b (2 ^ i) := by
  refine ⟨?_, ?_, ?_, ?_, ?_⟩
  · rw [word_get_pow, word_get_pow, testBit_word_set b i j v hi hj,
      if_neg (Ne.symm hij)]
  · rw [word_get_pow, word_get_pow, testBit_word_negate b i j,
      if_neg (Ne.symm hij)]
  · rw [word_get_pow, testBit_word_set b i i v hi hi, if_pos rfl]
  · rw [word_get_pow,
      testBit_word_set (word_set b (2 ^ i) true) i i false hi hi, if_pos rfl]
  · rw [word_get_pow, word_get_pow, testBit_word_negate b i i, if_pos rfl]

/-- Witness for C8 at `b = 5`, `i = 0`, `j = 1`, `v = true`. -/
theorem flag_ops_witness :
    word_get (word_set 5 (2 ^ 0) true) (2 ^ 1) = word_get 5 (2 ^ 1) ∧
    word_get (word_negate 5 (2 ^ 0)) (2 ^ 1) = word_get 5 (2 ^ 1) ∧
    word_get (word_set 5 (2 ^ 0) true) (2 ^ 0) = true ∧
    word_get (word_set (word_set 5 (2 ^ 0) true) (2 ^ 0) false) (2 ^ 0) = false ∧
    word_get (word_negate 5 (2 ^ 0)) (2 ^ 0) = !word_get 5 (2 ^ 0) :=
  flag_ops_independent 5 0 1 true (by decide) (by decide) (by decide)

/-! ## Claim C6: scheduler backlog and sleep -/

/-- C6 (amended): the sleep handed to `portable::sleep` is the
whole-millisecond truncation of `clamp(4ms - backlog, 0, 10ms)` and always
lies in `[0, 10]` ms; a backlog whose magnitude exceeds 3 seconds at the
top of the iteration is reset to zero before the tick time is added, an
in-range backlog is carried forward. -/
theorem scheduler_sleep_clamped (backlog elapsed : ℤ) :
    (schedule_step backlog elapsed).2 =
      min (max (4000000 - (schedule_step backlog elapsed).1) 0) 10000000 / 1000000 ∧
    0 ≤ (schedule_step backlog elapsed).2 ∧
    (schedule_step backlog elapsed).2 ≤ 10 ∧
    ((3000000000 < backlog ∨ backlog < -3000000000) →
      (schedule_step backlog elapsed).1 = elapsed - 4000000) ∧
    (-3000000000 ≤ backlog → backlog ≤ 3000000000 →
      (schedule_step backlog elapsed).1 = backlog + (elapsed - 4000000)) := by
  simp only [schedule_step]
  split_ifs with h <;> refine ⟨?_, ?_, ?_, ?_, ?_⟩ <;>
    first
    | trivial
    | omega

/-- Counterexample for C6 as stated: with backlog 0 and a 4.5 ms tick the
clamped value is 3.5 ms but the duration passed to the sleep call is the
truncated 3 ms, which differs from the clamp. -/
theorem scheduler_sleep_truncation_counterexample :
    (schedule_step 0 4500000).2 = 3 ∧
    min (max (4000000 - (schedule_step 0 4500000).1) 0) 10000000 = 3500000 ∧
    (3 : ℤ) * 1000000 ≠ 3500000 := by
  simp only [schedule_step]
  norm_num

/-- Witness for C6 exercising the backlog-overflow reset and the sleep
bounds at concrete inputs. -/
theorem scheduler_sleep_witness :
    ((3000000000 : ℤ) < 4000000000 ∨ (4000000000 : ℤ) < -3000000000) ∧
    (schedule_step 4000000000 5000000).1 = 5000000 - 4000000 ∧
    0 ≤ (schedule_step 4000000000 5000000).2 ∧
    (schedule_step 4000000000 5000000).2 ≤ 10 :=
  ⟨Or.inl (by norm_num),
   (scheduler_sleep_clamped 4000000000 5000000).2.2.2.1 (Or.inl (by norm_num)),
   (scheduler_sleep_clamped 4000000000 5000000).2.1,
   (scheduler_sleep_clamped 4000000000 5000000).2.2.1⟩

/-! ## Claim C7: axis selection -/

/-- C7: `get_selected_axis_value` copies the raw pose through, assigns each
output channel the raw value at its configured source index when that index
lies in 0-5 and 0 otherwise (the guard makes an out-of-bounds read
impossible), and sets the disabled bit exactly for the sentinel index 6. -/
theorem axis_selector_spec (src : Fin 6 → ℤ) (p : Pose) (i : Fin 6) :
    (get_selected_axis_value src p).1 = p ∧
    (get_selected_axis_value src p).2.1 i =
      (if h : 0 ≤ src i ∧ src i < 6 then p ⟨(src i).toNat, by omega⟩ else 0) ∧
    ((get_selected_axis_value src p).2.2 i = true ↔ src i = 6) := by
  refine ⟨rfl, ?_, ?_⟩
  · show (if h : src i < 0 ∨ 6 ≤ src i then (0 : ℝ)
          else p ⟨(src i).toNat, by omega⟩) = _
    by_cases h : src i < 0 ∨ 6 ≤ src i
    · rw [dif_pos h, dif_neg (by omega)]
    · rw [dif_neg h, dif_pos (by omega)]
  · show (src i == 6) = true ↔ src i = 6
    exact beq_iff_eq

/-! ## Helper lemmas: fmod and clamping -/

theorem fmodR_bounds (x : ℝ) : -360 < fmodR x 360 ∧ fmodR x 360 < 360 := by
  unfold fmodR truncR
  have hx : 360 * (x / 360) = x := by field_simp
  by_cases h : 0 ≤ x / 360
  · rw [if_pos h]
    have h1 : ((⌊x / 360⌋ : ℤ) : ℝ) ≤ x / 360 := Int.floor_le _
    have h2 : x / 360 < ((⌊x / 360⌋ : ℤ) : ℝ) + 1 := Int.lt_floor_add_one _
    constructor <;> nlinarith
  · rw [if_neg h]
    have h1 : x / 360 ≤ ((⌈x / 360⌉ : ℤ) : ℝ) := Int.le_ceil _
    have h2 : ((⌈x / 360⌉ : ℤ) : ℝ) < x / 360 + 1 := Int.ceil_lt_add_one _
    constructor <;> nlinarith

theorem fmodR_small (x : ℝ) (h1 : -360 < x) (h2 : x < 360) : fmodR x 360 = x := by
  unfold fmodR truncR
  by_cases h : 0 ≤ x / 360
  · have hf : ⌊x / 360⌋ = 0 := by
      rw [Int.floor_eq_iff]
      constructor
      · exact_mod_cast h
      · push_cast
        rw [div_lt_iff (by norm_num : (0 : ℝ) < 360)]
        linarith
    rw [if_pos h, hf]
    push_cast
    ring
  · have hf : ⌈x / 360⌉ = 0 := by
      rw [Int.ceil_eq_iff]
      constructor
      · push_cast
        rw [lt_div_iff (by norm_num : (0 : ℝ) < 360)]
        linarith
      · push_cast
        exact le_of_lt (lt_of_not_le h)
    rw [if_neg h, hf]
    push_cast
    ring

theorem clamp_rot_mem (v : ℝ) : -180 ≤ clamp_rot v ∧ clamp_rot v ≤ 180 := by
  unfold clamp_rot
  have hb := fmodR_bounds v
  set r := fmodR v 360 with hr
  by_cases h : |r| - 1 / 100 > 180
  · rw [if_pos h]
    rcases le_or_lt 0 r with hs | hs
    · have habs : |r| = r := abs_of_nonneg hs
      have hr1 : 180 + 1 / 100 < r := by rw [habs] at h; linarith
      have hcs : copysignR 180 r = 180 := if_neg (not_lt.mpr hs)
      have hfe : fmodR (r + 180) 360 = r + 180 - 360 := by
        unfold fmodR truncR
        have hq : (0 : ℝ) ≤ (r + 180) / 360 := by positivity
        have hf : ⌊(r + 180) / 360⌋ = 1 := by
          rw [Int.floor_eq_iff]
          constructor
          · push_cast
            rw [le_div_iff (by norm_num : (0 : ℝ) < 360)]
            linarith
          · push_cast
            rw [div_lt_iff (by norm_num : (0 : ℝ) < 360)]
            linarith [hb.2]
        rw [if_pos hq, hf]
        push_cast
        ring
      rw [hcs, hfe]
      constructor <;> linarith [hb.2]
    · have habs : |r| = -r := abs_of_neg hs
      have hr1 : r < -(180 + 1 / 100) := by rw [habs] at h; linarith
      have hcs : copysignR 180 r = -180 := if_pos hs
      have hfe : fmodR (r + -180) 360 = r - 180 + 360 := by
        unfold fmodR truncR
        have hq : ¬ (0 : ℝ) ≤ (r + -180) / 360 := by
          rw [not_le, div_neg_iff]
          right
          constructor <;> linarith
        have hf : ⌈(r + -180) / 360⌉ = -1 := by
          rw [Int.ceil_eq_iff]
          constructor
          · push_cast
            rw [lt_div_iff (by norm_num : (0 : ℝ) < 360)]
            linarith [hb.1]
          · push_cast
            rw [div_le_iff (by norm_num : (0 : ℝ) < 360)]
            linarith
        rw [if_neg hq, hf]
        push_cast
        ring
      rw [hcs, hfe]
      constructor <;> linarith [hb.1]
  · rw [if_neg h]
    unfold clampR
    exact ⟨le_min (le_max_right _ _) (by norm_num), min_le_right _ _⟩

theorem clamp_rot_id (x : ℝ) (h1 : -180 < x) (h2 : x ≤ 180) : clamp_rot x = x := by
  unfold clamp_rot
  rw [fmodR_small x (by linarith) (by linarith)]
  have habs : |x| ≤ 180 := abs_le.mpr ⟨by linarith, h2⟩
  rw [if_neg (by push_neg; linarith)]
  unfold clampR
  rw [max_eq_left (by linarith), min_eq_left h2]

/-! ## Claim C3: angle clamping -/

/-- C3 (amended): `clamp_value` leaves the translation channels unmodified
and maps each rotation channel into the closed interval `[-180, 180]`
(the boundary `-180` is reachable, so the interval is not half-open); for
rotation inputs already in `(-180, 180]` the output equals the input, and
181 maps to -179, -185 maps to 175, 720 maps to 0. -/
theorem clamp_value_range_closed (p : Pose) :
    (∀ i : Fin 6, (i : ℕ) < 3 → clamp_value p i = p i) ∧
    (∀ i : Fin 6, 3 ≤ (i : ℕ) →
      -180 ≤ clamp_value p i ∧ clamp_value p i ≤ 180) ∧
    (∀ i : Fin 6, 3 ≤ (i : ℕ) → -180 < p i → p i ≤ 180 →
      clamp_value p i = p i) ∧
    clamp_rot 181 = -179 ∧ clamp_rot (-185) = 175 ∧ clamp_rot 720 = 0 := by
  refine ⟨?_, ?_, ?_, ?_, ?_, ?_⟩
  · intro i hi
    unfold clamp_value
    rw [if_neg (by omega)]
  · intro i hi
    unfold clamp_value
    rw [if_pos hi]
    exact clamp_rot_mem (p i)
  · intro i hi h1 h2
    unfold clamp_value
    rw [if_pos hi]
    exact clamp_rot_id (p i) h1 h2
  · unfold clamp_rot
    rw [fmodR_small 181 (by norm_num) (by norm_num)]
    rw [if_pos (by rw [abs_of_nonneg (by norm_num : (0:ℝ) ≤ 181)]; norm_num)]
    have hcs : copysignR 180 181 = 180 := if_neg (by norm_num)
    rw [hcs]
    have hfe : fmodR (181 + 180) 360 = 1 := by
      unfold fmodR truncR
      rw [if_pos (by norm_num)]
      norm_num
    rw [hfe]
    norm_num
  · unfold clamp_rot
    rw [fmodR_small (-185) (by norm_num) (by norm_num)]
    rw [if_pos (by rw [abs_of_neg (by norm_num : (-185:ℝ) < 0)]; norm_num)]
    have hcs : copysignR 180 (-185) = -180 := if_pos (by norm_num)
    rw [hcs]
    have hfe : fmodR (-185 + -180) 360 = -5 := by
      unfold fmodR truncR
      rw [if_neg (by norm_num)]
      have hc : ⌈(-185 + -180 : ℝ) / 360⌉ = -1 := by
        rw [Int.ceil_eq_iff]
        constructor <;> push_cast <;> norm_num
      rw [hc]
      norm_num
    rw [hfe]
    norm_num
  · unfold clamp_rot
    have hfe : fmodR 720 360 = 0 := by
      unfold fmodR truncR
      rw [if_pos (by norm_num)]
      norm_num
    rw [hfe]
    rw [if_neg (by norm_num)]
    unfold clampR
    norm_num

/-- Witness for C3 at the pose constantly 100 and rotation channel 4. -/
theorem clamp_value_witness :
    (3 : ℕ) ≤ ((4 : Fin 6) : ℕ) ∧
    -180 ≤ clamp_value (fun _ => 100) 4 ∧
    clamp_value (fun _ => 100) 4 ≤ 180 ∧
    clamp_value (fun _ => 100) 4 = 100 :=
  ⟨by decide,
   ((clamp_value_range_closed (fun _ => 100)).2.1 4 (by decide)).1,
   ((clamp_value_range_closed (fun _ => 100)).2.1 4 (by decide)).2,
   (clamp_value_range_closed (fun _ => 100)).2.2.1 4 (by decide)
     (by norm_num) (by norm_num)⟩

/-- Counterexample for C3 as stated: the rotation input -180 is returned
unchanged, so the output is not in the half-open interval `(-180, 180]`. -/
theorem clamp_value_open_interval_counterexample :
    clamp_value (fun _ => -180) 3 = -180 ∧
    ¬ (-180 < clamp_value (fun _ => -180) 3) := by
  have h : clamp_value (fun _ => -180) 3 = -180 := by
    unfold clamp_value
    rw [if_pos (by decide)]
    have hfe : fmodR (-180) 360 = -180 :=
      fmodR_small (-180) (by norm_num) (by norm_num)
    unfold clamp_rot
    rw [hfe]
    rw [if_neg (by rw [abs_of_neg (by norm_num : (-180:ℝ) < 0)]; norm_num)]
    unfold clampR
    norm_num
  exact ⟨h, by rw [h]; norm_num⟩

/-! ## Helper lemmas: rotation matrices and centering -/

theorem rotM1_mul_transpose (a : ℝ) : rotM1 a * (rotM1 a)ᵀ = 1 := by
  have ht : (rotM1 a)ᵀ = !![1, 0, 0; 0, cos a, sin a; 0, -sin a, cos a] := by
    ext i j
    fin_cases i <;> fin_cases j <;> rfl
  rw [ht, rotM1, Matrix.mul_fin_three]
  ext i j
  fin_cases i <;> fin_cases j <;>
    simp [Matrix.one_apply, Matrix.vecHead, Matrix.vecTail] <;>
    nlinarith [sin_sq_add_cos_sq a]

theorem rotM2_mul_transpose (a : ℝ) : rotM2 a * (rotM2 a)ᵀ = 1 := by
  have ht : (rotM2 a)ᵀ = !![cos a, 0, -sin a; 0, 1, 0; sin a, 0, cos a] := by
    ext i j
    fin_cases i <;> fin_cases j <;> rfl
  rw [ht, rotM2, Matrix.mul_fin_three]
  ext i j
  fin_cases i <;> fin_cases j <;>
    simp [Matrix.one_apply, Matrix.vecHead, Matrix.vecTail] <;>
    nlinarith [sin_sq_add_cos_sq a]

theorem rotM3_mul_transpose (a : ℝ) : rotM3 a * (rotM3 a)ᵀ = 1 := by
  have ht : (rotM3 a)ᵀ = !![cos a, sin a, 0; -sin a, cos a, 0; 0, 0, 1] := by
    ext i j
    fin_cases i <;> fin_cases j <;> rfl
  rw [ht, rotM3, Matrix.mul_fin_three]
  ext i j
  fin_cases i <;> fin_cases j <;>
    simp [Matrix.one_apply, Matrix.vecHead, Matrix.vecTail] <;>
    nlinarith [sin_sq_add_cos_sq a]

theorem mul_mul_transpose (M N : Mat3) (hM : M * Mᵀ = 1) (hN : N * Nᵀ = 1) :
    (M * N) * (M * N)ᵀ = 1 := by
  rw [Matrix.transpose_mul]
  calc M * N * (Nᵀ * Mᵀ) = M * (N * Nᵀ) * Mᵀ := by
        rw [Matrix.mul_assoc, Matrix.mul_assoc, Matrix.mul_assoc]
    _ = 1 := by rw [hN, Matrix.mul_one, hM]

theorem euler_to_rmat_mul_transpose (e : vec3) :
    euler_to_rmat e * (euler_to_rmat e)ᵀ = 1 := by
  unfold euler_to_rmat
  exact mul_mul_transpose _ _
    (mul_mul_transpose _ _ (rotM3_mul_transpose _) (rotM2_mul_transpose _))
    (rotM1_mul_transpose _)

theorem atan2R_zero_one : atan2R 0 1 = 0 := by
  unfold atan2R
  rw [if_pos one_pos]
  norm_num

theorem rmat_to_euler_one : rmat_to_euler (1 : Mat3) = 0 := by
  have h00 : (1 : Mat3) 0 0 = 1 := Matrix.one_apply_eq _
  have h22 : (1 : Mat3) 2 2 = 1 := Matrix.one_apply_eq _
  have h10 : (1 : Mat3) 1 0 = 0 := Matrix.one_apply_ne (by decide)
  have h20 : (1 : Mat3) 2 0 = 0 := Matrix.one_apply_ne (by decide)
  have h21 : (1 : Mat3) 2 1 = 0 := Matrix.one_apply_ne (by decide)
  funext j
  fin_cases j <;>
    simp [rmat_to_euler, h00, h22, h10, h20, h21, atan2R_zero_one]

theorem rotate_zero_vec (R : Mat3) :
    rotate R (fun _ => 0) (fun _ => false) = fun _ => 0 := by
  unfold rotate
  have hz : (![(fun _ => (0:ℝ)) 2, -((fun _ => (0:ℝ)) 0), -((fun _ => (0:ℝ)) 1)])
      = (0 : vec3) := by
    funext i
    fin_cases i <;> norm_num
  rw [hz, Matrix.mulVec_zero]
  funext j
  fin_cases j <;> norm_num

theorem msc_capture_scaled (cfg : Config) (st : PState) (value : Pose)
    (hc : word_get st.b f_center = true) :
    (maybe_set_center_pose cfg st value false).1.scaled_rotation =
      ⟨euler_to_rmat (fun j => cfg.c_div * (d2r * value ⟨j.val + 3, by omega⟩)),
       (euler_to_rmat (fun j => cfg.c_div * (d2r * value ⟨j.val + 3, by omega⟩)))ᵀ⟩ := by
  unfold maybe_set_center_pose
  rw [hc]
  rfl

theorem msc_capture_real (cfg : Config) (st : PState) (value : Pose)
    (hc : word_get st.b f_center = true) :
    (maybe_set_center_pose cfg st value false).1.real_rotation =
      ⟨euler_to_rmat (fun j => d2r * value ⟨j.val + 3, by omega⟩),
       (euler_to_rmat (fun j => d2r * value ⟨j.val + 3, by omega⟩))ᵀ⟩ := by
  unfold maybe_set_center_pose
  rw [hc]
  rfl

theorem msc_capture_t (cfg : Config) (st : PState) (value : Pose)
    (hc : word_get st.b f_center = true) :
    (maybe_set_center_pose cfg st value false).1.t_center =
      fun j => value ⟨j.val, by omega⟩ := by
  unfold maybe_set_center_pose
  rw [hc]
  rfl

/-! ## Claim C4: centering round trip -/

theorem apply_center_of_centered (cfg : Config) (st : PState) (value : Pose)
    (h1 : st.scaled_rotation.rotation * st.scaled_rotation.rot_center = 1)
    (h2 : st.t_center = fun j => value ⟨j.val, by omega⟩) :
    ∀ i, apply_center cfg st value i = 0 := by
  intro i
  unfold apply_center
  have hpos : (fun j : Fin 3 => value ⟨j.val, by omega⟩ - st.t_center j)
      = fun _ => (0 : ℝ) := by
    rw [h2]
    funext j
    simp
  rw [h1, rmat_to_euler_one, hpos, rotate_zero_vec]
  by_cases h3 : (i : ℕ) < 3
  · rw [dif_pos h3]
    cases hi : cfg.invert i <;> simp
  · rw [dif_neg h3]
    cases hi : cfg.invert i <;> simp

/-- C4: when the center flag is set and own-center logic is off, a
`maybe_set_center_pose` capture followed immediately by `apply_center` on
the same pose yields the all-zero pose: translation and rotation channels
are all exactly 0 (for any invert flags, in particular all off). -/
theorem centering_roundtrip_zero (cfg : Config) (st : PState) (value : Pose)
    (hc : word_get st.b f_center = true) :
    ∀ i, apply_center cfg (maybe_set_center_pose cfg st value false).1 value i = 0 := by
  apply apply_center_of_centered
  · rw [msc_capture_scaled cfg st value hc]
    exact euler_to_rmat_mul_transpose
      (fun j => cfg.c_div * (d2r * value ⟨j.val + 3, by omega⟩))
  · rw [msc_capture_t cfg st value hc]

/-- Witness for C4 at a concrete state with the center flag set and the
constant pose 7. -/
theorem centering_roundtrip_witness :
    word_get 1 f_center = true ∧
    apply_center
      { src := fun _ => 0, invert := fun _ => false, zero_off := fun _ => 0,
        altp := fun _ => false, center_at_startup := false, c_mult := 1,
        c_div := 1, reltrans_mode := RMode.disabled, rt_disable := fun _ => false,
        neck_enable := false, neck_z := 0, hasFilter := false }
      (maybe_set_center_pose
        { src := fun _ => 0, invert := fun _ => false, zero_off := fun _ => 0,
          altp := fun _ => false, center_at_startup := false, c_mult := 1,
          c_div := 1, reltrans_mode := RMode.disabled, rt_disable := fun _ => false,
          neck_enable := false, neck_z := 0, hasFilter := false }
        { b := 1, tracking_started := true, newpose := fun _ => 7,
          output_pose := fun _ => 0, raw_6dof := fun _ => 0,
          scaled_rotation := ⟨1, 1⟩, real_rotation := ⟨1, 1⟩, t_center := 0,
          relSt := ⟨false, false, 0⟩, nan_emitted := false }
        (fun _ => 7) false).1
      (fun _ => 7) 0 = 0 :=
  ⟨by decide,
   centering_roundtrip_zero _ _ (fun _ => 7) (by decide) 0⟩

/-! ## Claims C5 and C2: reltrans state machine -/

/-- C5: with mode `disabled`, `apply_pipeline` returns the input pose
unchanged for every pose and disable mask, and both transient flags (the
interpolating flag and the zone flag) are false afterwards. -/
theorem reltrans_disabled_identity (dt : ℝ) (st : RelSt) (value : Pose)
    (disable : Fin 6 → Bool) :
    apply_pipeline dt RMode.disabled st value disable =
      (value, ⟨false, false, st.interp_pos⟩) := by
  unfold apply_pipeline
  rw [if_pos rfl]

/-- C2: while the interpolation flag is active (and mode is not disabled),
the interpolation flag after the step is cleared exactly when three times
the absolute value of the first component of the difference between the
zone-step translation and the freshly blended interpolated position drops
below the epsilon 0.05; the other two components do not occur in the
residual. -/
theorem reltrans_residual_first_axis (dt : ℝ) (mode : RMode) (st : RelSt)
    (value : Pose) (disable : Fin 6 → Bool)
    (hm : mode ≠ RMode.disabled)
    (hc : cur_next st (tcomp_in_zone mode value) = true) :
    ((apply_pipeline dt mode st value disable).2.cur = false ↔
      3 * |rel_step mode value disable 0 -
        interp_next dt st.interp_pos (rel_step mode value disable) 0| < 1 / 20) := by
  have harith : ∀ a : ℝ, |a| + |a| + |a| = 3 * |a| := fun a => by ring
  unfold apply_pipeline
  rw [if_neg hm]
  simp only [hc, if_true]
  split_ifs with hd
  · refine iff_of_true rfl ?_
    rw [← harith]
    exact hd
  · refine iff_of_false not_false ?_
    intro hcon
    exact hd (by rw [harith]; exact hcon)

/-- Witness for C2 at mode `enabled`, an already-interpolating state, the
zero pose and `dt = 1`. -/
theorem reltrans_residual_witness :
    RMode.enabled ≠ RMode.disabled ∧
    cur_next ⟨true, true, fun _ => 0⟩
      (tcomp_in_zone RMode.enabled (fun _ => 0)) = true ∧
    ((apply_pipeline 1 RMode.enabled ⟨true, true, fun _ => 0⟩ (fun _ => 0)
        (fun _ => false)).2.cur = false ↔
      3 * |rel_step RMode.enabled (fun _ => 0) (fun _ => false) 0 -
        interp_next 1 (fun _ => 0)
          (rel_step RMode.enabled (fun _ => 0) (fun _ => false)) 0| < 1 / 20) :=
  ⟨by decide, rfl,
   reltrans_residual_first_axis 1 RMode.enabled ⟨true, true, fun _ => 0⟩
     (fun _ => 0) (fun _ => false) (by decide) rfl⟩

/-! ## Helper lemmas: tick structure -/

theorem finish_st_b (cfg : Config) (tk : TickIn) (st1 : PState) (v r : Pose)
    (n c h : Bool) :
    (finish cfg tk st1 v r n c h).st.b = word_set st1.b f_center false := rfl

theorem finish_st_raw (cfg : Config) (tk : TickIn) (st1 : PState) (v r : Pose)
    (n c h : Bool) : (finish cfg tk st1 v r n c h).st.raw_6dof = r := rfl

theorem finish_st_output (cfg : Config) (tk : TickIn) (st1 : PState) (v r : Pose)
    (n c h : Bool) :
    (finish cfg tk st1 v r n c h).st.output_pose =
      tk.evFinished (apply_zero_pos cfg
        (if word_get (word_set st1.b f_center false) f_zero
         then (fun _ => (0 : ℝ)) else v)) := rfl

theorem finish_st_nan (cfg : Config) (tk : TickIn) (st1 : PState) (v r : Pose)
    (n c h : Bool) :
    (finish cfg tk st1 v r n c h).st.nan_emitted = (st1.nan_emitted || n) := rfl

theorem finish_st_tracking (cfg : Config) (tk : TickIn) (st1 : PState) (v r : Pose)
    (n c h : Bool) :
    (finish cfg tk st1 v r n c h).st.tracking_started = st1.tracking_started := rfl

theorem finish_emitted (cfg : Config) (tk : TickIn) (st1 : PState) (v r : Pose)
    (n c h : Bool) :
    (finish cfg tk st1 v r n c h).emitted = (n && !st1.nan_emitted) := rfl

theorem finish_captured (cfg : Config) (tk : TickIn) (st1 : PState) (v r : Pose)
    (n c h : Bool) : (finish cfg tk st1 v r n c h).captured = c := rfl

theorem finish_hook (cfg : Config) (tk : TickIn) (st1 : PState) (v r : Pose)
    (n c h : Bool) : (finish cfg tk st1 v r n c h).hookCalled = h := rfl

theorem finish_nanTick (cfg : Config) (tk : TickIn) (st1 : PState) (v r : Pose)
    (n c h : Bool) : (finish cfg tk st1 v r n c h).nanTick = n := rfl

theorem msc_fst_b (cfg : Config) (s : PState) (v : Pose) (o : Bool) :
    (maybe_set_center_pose cfg s v o).1.b = s.b := by
  unfold maybe_set_center_pose
  split_ifs <;> rfl

theorem msc_fst_nan (cfg : Config) (s : PState) (v : Pose) (o : Bool) :
    (maybe_set_center_pose cfg s v o).1.nan_emitted = s.nan_emitted := by
  unfold maybe_set_center_pose
  split_ifs <;> rfl

theorem msc_fst_tracking (cfg : Config) (s : PState) (v : Pose) (o : Bool) :
    (maybe_set_center_pose cfg s v o).1.tracking_started = s.tracking_started := by
  unfold maybe_set_center_pose
  split_ifs <;> rfl

theorem msc_snd (cfg : Config) (s : PState) (v : Pose) (o : Bool) :
    (maybe_set_center_pose cfg s v o).2 =
      (word_get s.b f_center && cfg.hasFilter) := by
  unfold maybe_set_center_pose
  split_ifs with h1 h2 <;> simp [h1]

theorem stB_b (cfg : Config) (tk : TickIn) (st : PState) :
    (tick_stB cfg tk st).b = tick_b1 cfg tk st := by
  unfold tick_stB tick_msc
  rw [msc_fst_b]
  rfl

theorem stB_nan (cfg : Config) (tk : TickIn) (st : PState) :
    (tick_stB cfg tk st).nan_emitted = st.nan_emitted := by
  unfold tick_stB tick_msc
  rw [msc_fst_nan]
  rfl

theorem stB_tracking (cfg : Config) (tk : TickIn) (st : PState) :
    (tick_stB cfg tk st).tracking_started = tick_started tk st := by
  unfold tick_stB tick_msc
  rw [msc_fst_tracking]
  rfl

theorem stC_b (cfg : Config) (tk : TickIn) (st : PState) :
    (tick_stC cfg tk st).b = tick_b1 cfg tk st := by
  unfold tick_stC
  rw [← stB_b cfg tk st]

theorem stC_nan (cfg : Config) (tk : TickIn) (st : PState) :
    (tick_stC cfg tk st).nan_emitted = st.nan_emitted := by
  unfold tick_stC
  rw [← stB_nan cfg tk st]

theorem stC_tracking (cfg : Config) (tk : TickIn) (st : PState) :
    (tick_stC cfg tk st).tracking_started = tick_started tk st := by
  unfold tick_stC
  rw [← stB_tracking cfg tk st]

theorem tick_hook_eq (cfg : Config) (tk : TickIn) (st : PState) :
    tick_hook cfg tk st =
      (word_get (tick_b1 cfg tk st) f_center && cfg.hasFilter) := by
  unfold tick_hook tick_msc
  rw [msc_snd]
  rfl

theorem tick_b1_zero_bit (cfg : Config) (tk : TickIn) (st : PState) :
    word_get (tick_b1 cfg tk st) f_zero = word_get st.b f_zero := by
  unfold tick_b1
  split_ifs with h
  · exact word_get_set_center_zero st.b true
  · rfl

theorem logic_emitted (cfg : Config) (tk : TickIn) (st : PState) :
    (logic cfg tk st).emitted = ((logic cfg tk st).nanTick && !st.nan_emitted) := by
  unfold logic
  split_ifs with h1 h2 h3 <;>
    rw [finish_emitted, finish_nanTick] <;>
    simp [stB_nan, stC_nan]

theorem logic_cases (cfg : Config) (tk : TickIn) (st : PState)
    (hn : (logic cfg tk st).nanTick = true) :
    logic cfg tk st = finish cfg tk st st.output_pose st.raw_6dof true false false ∨
    logic cfg tk st = finish cfg tk (tick_stB cfg tk st) st.output_pose
      st.raw_6dof true (tick_captured cfg tk st) (tick_hook cfg tk st) ∨
    logic cfg tk st = finish cfg tk (tick_stC cfg tk st) st.output_pose
      st.raw_6dof true (tick_captured cfg tk st) (tick_hook cfg tk st) := by
  unfold logic at hn ⊢
  split_ifs at hn ⊢ with h1 h2 h3
  · exact Or.inl rfl
  · exact Or.inr (Or.inl rfl)
  · exact Or.inr (Or.inr rfl)
  · rw [finish_nanTick] at hn
    exact absurd hn (by simp)

/-! ## Claim C10: the center flag is a one-shot request -/

/-- C10: at the end of every tick — normal path or NaN fallback — the
center flag is cleared; consequently (with center-at-startup off, so no
auto request refreshes it) the tick after any tick performs no center
capture: a single external `set_center` is honored during at most one
subsequent tick. -/
theorem center_flag_oneshot (cfg : Config) (tk1 tk2 : TickIn) (st : PState)
    (hs : cfg.center_at_startup = false) :
    word_get (logic cfg tk1 st).st.b f_center = false ∧
    (logic cfg tk2 (logic cfg tk1 st).st).captured = false := by
  have hb : ∀ (tk : TickIn) (st1 : PState),
      word_get (logic cfg tk st1).st.b f_center = false := by
    intro tk st1
    unfold logic
    split_ifs <;> rw [finish_st_b] <;> exact word_get_clear_center _
  refine ⟨hb tk1 st, ?_⟩
  have hc1 : word_get (logic cfg tk1 st).st.b f_center = false := hb tk1 st
  generalize hst : (logic cfg tk1 st).st = st1 at hc1 ⊢
  have hb1 : tick_b1 cfg tk2 st1 = st1.b := by
    unfold tick_b1
    rw [hs]
    simp
  unfold logic
  split_ifs
  · rw [finish_captured]
  all_goals
    rw [finish_captured]
    unfold tick_captured
    rw [hb1]
    exact hc1

/-! ## Claim C1: NaN fallback -/

theorem apply_zero_pos_id (cfg : Config) (v : Pose)
    (h : ∀ i, cfg.zero_off i = 0) : apply_zero_pos cfg v = v := by
  funext i
  unfold apply_zero_pos
  rw [h i]
  ring

/-- C1 (amended): on a tick where any NaN check point fires, the raw
snapshot is the previous raw snapshot; the published output is the
previous output re-subjected to the zero-flag override, the per-axis zero
offsets and the finished-event transform — hence it equals the previous
output exactly when the finished event is the identity, all zero offsets
are 0 and the zero flag is clear; the diagnostic is emitted iff it never
fired before, and any later NaN tick emits nothing (one emission across
repeated NaN ticks). -/
theorem nan_guard_substitutes_previous (cfg : Config) (tk : TickIn)
    (st : PState) (hn : (logic cfg tk st).nanTick = true) :
    (logic cfg tk st).st.raw_6dof = st.raw_6dof ∧
    (logic cfg tk st).st.output_pose =
      tk.evFinished (apply_zero_pos cfg
        (if word_get st.b f_zero then (fun _ => (0 : ℝ)) else st.output_pose)) ∧
    (tk.evFinished = id → (∀ i, cfg.zero_off i = 0) →
      word_get st.b f_zero = false →
      (logic cfg tk st).st.output_pose = st.output_pose) ∧
    (logic cfg tk st).emitted = !st.nan_emitted ∧
    (∀ tk2 : TickIn, (logic cfg tk2 (logic cfg tk st).st).nanTick = true →
      (logic cfg tk2 (logic cfg tk st).st).emitted = false) := by
  have hlatch : (logic cfg tk st).st.nan_emitted = true := by
    rcases logic_cases cfg tk st hn with h | h | h <;> rw [h, finish_st_nan] <;>
      simp [stB_nan, stC_nan]
  have hzero : ∀ st1 : PState, st1.b = st.b ∨ st1.b = tick_b1 cfg tk st →
      word_get (word_set st1.b f_center false) f_zero = word_get st.b f_zero := by
    intro st1 h1
    rw [word_get_set_center_zero]
    rcases h1 with h1 | h1 <;> rw [h1]
    exact tick_b1_zero_bit cfg tk st
  have hout : (logic cfg tk st).st.output_pose =
      tk.evFinished (apply_zero_pos cfg
        (if word_get st.b f_zero then (fun _ => (0 : ℝ)) else st.output_pose)) := by
    rcases logic_cases cfg tk st hn with h | h | h <;> rw [h, finish_st_output]
    · rw [hzero st (Or.inl rfl)]
    · rw [hzero (tick_stB cfg tk st) (Or.inr (stB_b cfg tk st))]
    · rw [hzero (tick_stC cfg tk st) (Or.inr (stC_b cfg tk st))]
  refine ⟨?_, hout, ?_, ?_, ?_⟩
  · rcases logic_cases cfg tk st hn with h | h | h <;> rw [h, finish_st_raw]
  · intro hid hoff hz
    rw [hout, hz, if_neg (by simp), apply_zero_pos_id cfg _ hoff, hid]
    rfl
  · rw [logic_emitted, hn]
    rfl
  · intro tk2 hn2
    rw [logic_emitted, hn2, hlatch]
    rfl

/-! ## Claim C9: tracking latch and the first-tick capture -/

/-- C9 (amended): on a NaN-free tick the tracking latch after the tick is
the old latch or-ed with "some raw channel nonzero" — it stays false while
every sample is all-zero and turns true at the first nonzero sample; while
the latch is false it gates the center-at-startup auto request, but a
capture is gated on the center flag alone: with the flag clear no capture
or filter-center hook happens on an all-zero tick (the construction-time
flag being set does cause a capture on the very first tick). -/
theorem tracking_latch_gates_auto_center (cfg : Config) (tk : TickIn)
    (st : PState) (hf : anyNone tk.tracker = false) :
    (logic cfg tk st).st.tracking_started =
      (st.tracking_started || anyNonzero (tick_newpose tk st)) ∧
    (st.tracking_started = false → anyNonzero (tick_newpose tk st) = false →
      word_get st.b f_center = false →
      (logic cfg tk st).captured = false ∧
      (logic cfg tk st).hookCalled = false) := by
  have hniff : ¬ (anyNone tk.tracker = true) := by
    rw [hf]
    simp
  constructor
  · unfold logic
    rw [if_neg hniff]
    split_ifs <;> rw [finish_st_tracking] <;>
      (first
       | rw [stB_tracking]
       | rw [stC_tracking]) <;>
      rfl
  · intro h1 h2 h3
    have hb1 : tick_b1 cfg tk st = st.b := by
      unfold tick_b1 tick_started
      rw [h1, h2]
      simp
    have hcap : tick_captured cfg tk st = false := by
      unfold tick_captured
      rw [hb1]
      exact h3
    have hhk : tick_hook cfg tk st = false := by
      rw [tick_hook_eq, hb1, h3]
      rfl
    unfold logic
    rw [if_neg hniff]
    split_ifs <;>
      exact ⟨by rw [finish_captured]; exact hcap,
             by rw [finish_hook]; exact hhk⟩

/-! ## Concrete instances for the counterexamples and witnesses -/

/-- Configuration with a nonzero zero offset on channel 0, used for C1. -/
def cfgC1 : Config :=
  { src := fun i => (i : ℤ), invert := fun _ => false,
    zero_off := fun i => if i = 0 then 1 else 0, altp := fun _ => false,
    center_at_startup := false, c_mult := 1, c_div := 1,
    reltrans_mode := RMode.disabled, rt_disable := fun _ => false,
    neck_enable := false, neck_z := 0, hasFilter := false }

/-- Tick whose tracker sample has a non-finite channel 0, used for C1. -/
def tkC1 : TickIn :=
  { tracker := fun i => if i = 0 then none else some 0,
    trackerOwnCenter := false, filterF := fun _ _ => some 0,
    mainS := fun _ _ => some 0, altS := fun _ _ => some 0,
    evRaw := id, evBeforeFilter := id, evBeforeMapping := id,
    evFinished := id, dt := 1 }

/-- Freshly constructed pipeline state with all-zero snapshots, used for C1. -/
def stC1 : PState :=
  { b := bits_init, tracking_started := false, newpose := fun _ => 0,
    output_pose := fun _ => 0, raw_6dof := fun _ => 0,
    scaled_rotation := ⟨1, 1⟩, real_rotation := ⟨1, 1⟩, t_center := 0,
    relSt := ⟨false, false, fun _ => 0⟩, nan_emitted := false }

/-- Configuration with a filter and no auto-centering, used for C9. -/
def cfgC9 : Config :=
  { src := fun i => (i : ℤ), invert := fun _ => false,
    zero_off := fun _ => 0, altp := fun _ => false,
    center_at_startup := false, c_mult := 1, c_div := 1,
    reltrans_mode := RMode.disabled, rt_disable := fun _ => false,
    neck_enable := false, neck_z := 0, hasFilter := true }

/-- Tick with an all-zero finite tracker sample, used for C9. -/
def tkC9 : TickIn :=
  { tracker := fun _ => some 0,
    trackerOwnCenter := false, filterF := fun _ _ => some 0,
    mainS := fun _ _ => some 0, altS := fun _ _ => some 0,
    evRaw := id, evBeforeFilter := id, evBeforeMapping := id,
    evFinished := id, dt := 1 }

/-- Freshly constructed pipeline state (center flag still set), for C9. -/
def stC9 : PState :=
  { b := bits_init, tracking_started := false, newpose := fun _ => 0,
    output_pose := fun _ => 0, raw_6dof := fun _ => 0,
    scaled_rotation := ⟨1, 1⟩, real_rotation := ⟨1, 1⟩, t_center := 0,
    relSt := ⟨false, false, fun _ => 0⟩, nan_emitted := false }

/-- Steady state after the first tick: center flag clear, latch false, for
the C9 witness. -/
def stC9b : PState :=
  { b := 6, tracking_started := false, newpose := fun _ => 0,
    output_pose := fun _ => 0, raw_6dof := fun _ => 0,
    scaled_rotation := ⟨1, 1⟩, real_rotation := ⟨1, 1⟩, t_center := 0,
    relSt := ⟨false, false, fun _ => 0⟩, nan_emitted := false }

/-- Configuration without auto-centering, used for the C10 witness. -/
def cfgC10 : Config :=
  { src := fun i => (i : ℤ), invert := fun _ => false,
    zero_off := fun _ => 0, altp := fun _ => false,
    center_at_startup := false, c_mult := 1, c_div := 1,
    reltrans_mode := RMode.disabled, rt_disable := fun _ => false,
    neck_enable := false, neck_z := 0, hasFilter := false }

/-- Tick with a NaN tracker channel, used for the C10 witness. -/
def tkC10 : TickIn :=
  { tracker := fun i => if i = 0 then none else some 0,
    trackerOwnCenter := false, filterF := fun _ _ => some 0,
    mainS := fun _ _ => some 0, altS := fun _ _ => some 0,
    evRaw := id, evBeforeFilter := id, evBeforeMapping := id,
    evFinished := id, dt := 1 }

/-- Fresh pipeline state, used for the C10 witness. -/
def stC10 : PState :=
  { b := bits_init, tracking_started := false, newpose := fun _ => 0,
    output_pose := fun _ => 0, raw_6dof := fun _ => 0,
    scaled_rotation := ⟨1, 1⟩, real_rotation := ⟨1, 1⟩, t_center := 0,
    relSt := ⟨false, false, fun _ => 0⟩, nan_emitted := false }

/-- Witness for C10: with auto-centering off, the flag is clear after a
tick and the following tick captures nothing. -/
theorem center_flag_oneshot_witness :
    cfgC10.center_at_startup = false ∧
    word_get (logic cfgC10 tkC10 stC10).st.b f_center = false ∧
    (logic cfgC10 tkC10 (logic cfgC10 tkC10 stC10).st).captured = false :=
  ⟨rfl, (center_flag_oneshot cfgC10 tkC10 tkC10 stC10 rfl).1,
   (center_flag_oneshot cfgC10 tkC10 tkC10 stC10 rfl).2⟩

/-- Counterexample for C1 as stated: on a NaN tick with a configured zero
offset of 1 on channel 0, the published output is 1 where the previous
output was 0, so the output does not equal the previous output. -/
theorem nan_guard_counterexample :
    (logic cfgC1 tkC1 stC1).nanTick = true ∧
    (logic cfgC1 tkC1 stC1).st.output_pose 0 = 1 ∧
    stC1.output_pose 0 = 0 ∧ (1 : ℝ) ≠ 0 := by
  have hn : (logic cfgC1 tkC1 stC1).nanTick = true := rfl
  refine ⟨hn, ?_, rfl, by norm_num⟩
  have h := (nan_guard_substitutes_previous cfgC1 tkC1 stC1 hn).2.1
  have hz : word_get stC1.b f_zero = false := by decide
  rw [h, hz, if_neg (by simp)]
  show apply_zero_pos cfgC1 stC1.output_pose 0 = 1
  unfold apply_zero_pos
  show stC1.output_pose 0 + cfgC1.zero_off 0 * (if cfgC1.invert 0 then -1 else 1) = 1
  norm_num [stC1, cfgC1]

/-- Witness for C1: the NaN tick keeps the raw snapshot and emits the
diagnostic exactly once from a fresh latch. -/
theorem nan_guard_witness :
    (logic cfgC1 tkC1 stC1).nanTick = true ∧
    (logic cfgC1 tkC1 stC1).st.raw_6dof = stC1.raw_6dof ∧
    (logic cfgC1 tkC1 stC1).emitted = !stC1.nan_emitted :=
  ⟨rfl, (nan_guard_substitutes_previous cfgC1 tkC1 stC1 rfl).1,
   (nan_guard_substitutes_previous cfgC1 tkC1 stC1 rfl).2.2.2.1⟩

/-- Counterexample for C9 as stated: on the very first tick, with every
raw channel zero and the latch still false, the construction-time center
flag causes a capture and invokes the filter-center hook. -/
theorem center_hook_first_tick_counterexample :
    (∀ i, tkC9.tracker i = some 0) ∧
    stC9.tracking_started = false ∧
    (logic cfgC9 tkC9 stC9).captured = true ∧
    (logic cfgC9 tkC9 stC9).hookCalled = true := by
  have hmap : ∀ (i : Fin 6) (x : ℝ), mapAxis cfgC9 tkC9 i x = some 0 := by
    intro i x
    unfold mapAxis
    have h1 : tkC9.altS i x = some 0 := rfl
    have h2 : tkC9.mainS i x = some 0 := rfl
    rw [h1, h2, ite_self]
  have h1 : anyNone tkC9.tracker = false := rfl
  have h2 : anyNone (tick_filtered cfgC9 tkC9 stC9) = false := rfl
  have h3 : anyNone (tick_checked cfgC9 tkC9 stC9) = false := by
    have h : ∀ i : Fin 6, (tick_checked cfgC9 tkC9 stC9 i).isNone = false := by
      intro i
      unfold tick_checked
      by_cases hlt : (i : ℕ) < 3
      · rw [if_pos hlt, hmap]
        rfl
      · rw [if_neg hlt]
        by_cases hd : tick_disabled cfgC9 tkC9 stC9 i = true
        · rw [if_pos hd]
          rfl
        · rw [if_neg hd]
          unfold tick_rotmapped
          rw [if_pos (by omega), hmap]
          rfl
    unfold anyNone
    rw [h 0, h 1, h 2, h 3, h 4, h 5]
    rfl
  have hb1 : tick_b1 cfgC9 tkC9 stC9 = stC9.b := by
    unfold tick_b1
    have hcs : cfgC9.center_at_startup = false := rfl
    rw [hcs]
    simp
  refine ⟨fun i => rfl, rfl, ?_, ?_⟩
  · unfold logic
    rw [if_neg (by rw [h1]; simp), if_neg (by rw [h2]; simp),
      if_neg (by rw [h3]; simp), finish_captured]
    unfold tick_captured
    rw [hb1]
    decide
  · unfold logic
    rw [if_neg (by rw [h1]; simp), if_neg (by rw [h2]; simp),
      if_neg (by rw [h3]; simp), finish_hook, tick_hook_eq, hb1]
    decide

/-- Witness for C9: in the steady state with the center flag clear, an
all-zero tick leaves the latch false and performs no capture and no hook
call. -/
theorem tracking_latch_witness :
    anyNone tkC9.tracker = false ∧
    stC9b.tracking_started = false ∧
    anyNonzero (tick_newpose tkC9 stC9b) = false ∧
    word_get stC9b.b f_center = false ∧
    (logic cfgC9 tkC9 stC9b).st.tracking_started =
      (stC9b.tracking_started || anyNonzero (tick_newpose tkC9 stC9b)) ∧
    (logic cfgC9 tkC9 stC9b).captured = false ∧
    (logic cfgC9 tkC9 stC9b).hookCalled = false := by
  have hf : anyNone tkC9.tracker = false := rfl
  have hnp : tick_newpose tkC9 stC9b = fun _ => (0 : ℝ) := by
    unfold tick_newpose
    rw [if_pos (by decide)]
    rfl
  have hz : anyNonzero (tick_newpose tkC9 stC9b) = false := by
    rw [hnp]
    unfold anyNonzero
    simp
  have h := tracking_latch_gates_auto_center cfgC9 tkC9 stC9b hf
  exact ⟨hf, rfl, hz, by decide, h.1, (h.2 rfl hz (by decide)).1,
    (h.2 rfl hz (by decide)).2⟩

end Opentrack
